import Mathlib

/-!
Verification of the core of the `foreman` (ralph-dev) task-orchestration CLI:
the circuit breaker, the healing service, the saga executor and saga service,
the workflow phase state machine, and the task-index next-task selection.

Pure data and operations are embedded shallowly.  Components whose TypeScript
implementation is present in the repository (`healing-service.ts`,
`state-service.ts`, the `SagaService` appended to `state-service.test.ts`) are
translated directly from that source; components whose implementation file is
absent (only tests and importers exist: `core/circuit-breaker`,
`core/saga-manager`, `core/index-manager`, `domain/state-entity`) are modelled
from the specification, and each such definition is marked
`Modelled from the spec`.
-/

/-- Modelled from the spec (§4.1, §7): a thrown JavaScript value is either a
real `Error` object carrying a message, or a non-`Error` value (e.g. a thrown
string); the repository normalizes the latter with `String(error)`. -/
inductive Thrown where
  | errObj (msg : String)
  | nonErr (val : String)
deriving Repr, DecidableEq

/-- The message obtained after the repository's `error instanceof Error ?
error : new Error(String(error))` normalization. -/
def Thrown.toMessage : Thrown → String
  | .errObj m => m
  | .nonErr v => v

/-- Modelled from the spec (§4.1): the three circuit-breaker states of the
missing `core/circuit-breaker` module. -/
inductive CircuitState where
  | CLOSED
  | OPEN
  | HALF_OPEN
deriving Repr, DecidableEq

/-- Modelled from the spec (§4.1): circuit-breaker configuration with the
documented defaults (`failureThreshold` 5, `successThreshold` 2,
`resetTimeoutMs` 60000). -/
structure CircuitBreakerConfig where
  failureThreshold : Nat := 5
  successThreshold : Nat := 2
  resetTimeoutMs : Nat := 60000
deriving Repr, DecidableEq

/-- Modelled from the spec (§3, §4.1): the state of one circuit breaker of the
missing `core/circuit-breaker` module.  Timestamps are milliseconds as `Nat`. -/
structure CircuitBreaker where
  config : CircuitBreakerConfig
  state : CircuitState := .CLOSED
  failureCount : Nat := 0
  successCount : Nat := 0
  lastFailureTime : Option Nat := none
  lastResetTime : Option Nat := none
deriving Repr, DecidableEq

/-- A freshly constructed breaker: CLOSED with all counters zeroed (spec §4.1,
"constructing a fresh breaker returns state to CLOSED with all counters
zeroed"). -/
def CircuitBreaker.fresh (cfg : CircuitBreakerConfig) : CircuitBreaker :=
  { config := cfg }

/-- Outcome of one `execute` call: the updated breaker, the call's result
(`Except.error` for a throw), and whether the wrapped operation was invoked. -/
structure ExecOutcome (α : Type) where
  breaker : CircuitBreaker
  result : Except Thrown α
  invoked : Bool
deriving Repr

/-- Modelled from the spec (§4.1, CLOSED): run the operation; a success resets
`failureCount` to 0; a failure increments it and, on reaching
`failureThreshold`, opens the breaker and records `lastFailureTime`. -/
def CircuitBreaker.runClosed (cb : CircuitBreaker) (now : Nat)
    (op : Except Thrown α) : ExecOutcome α :=
  match op with
  | .ok a => ⟨{ cb with failureCount := 0 }, .ok a, true⟩
  | .error e =>
    let fc := cb.failureCount + 1
    if cb.config.failureThreshold ≤ fc then
      let opened := { cb with state := CircuitState.OPEN, failureCount := fc, lastFailureTime := some now }
      ⟨opened, .error e, true⟩
    else
      ⟨{ cb with failureCount := fc }, .error e, true⟩

/-- Modelled from the spec (§4.1, HALF_OPEN): run the probe; a success
increments `successCount` and, on reaching `successThreshold`, closes the
breaker resetting all counters and recording `lastResetTime`; any failure
reopens immediately, resetting `successCount` and recording
`lastFailureTime`. -/
def CircuitBreaker.runHalfOpen (cb : CircuitBreaker) (now : Nat)
    (op : Except Thrown α) : ExecOutcome α :=
  match op with
  | .ok a =>
    let sc := cb.successCount + 1
    if cb.config.successThreshold ≤ sc then
      let closed := { cb with state := CircuitState.CLOSED, failureCount := 0, successCount := 0, lastResetTime := some now }
      ⟨closed, .ok a, true⟩
    else
      ⟨{ cb with successCount := sc }, .ok a, true⟩
  | .error e =>
    let reopened := { cb with state := CircuitState.OPEN, successCount := 0, lastFailureTime := some now }
    ⟨reopened, .error e, true⟩

/-- Modelled from the spec (§4.1): `execute(operation)`.  While OPEN and before
`resetTimeoutMs` has elapsed since `lastFailureTime`, the call is rejected with
the distinguished open-circuit error and the operation is not invoked; once the
timeout has elapsed the call lazily transitions to HALF_OPEN and runs as the
probe.  The operation's own outcome is passed in as `op`. -/
def CircuitBreaker.execute (cb : CircuitBreaker) (now : Nat)
    (op : Except Thrown α) : ExecOutcome α :=
  match cb.state with
  | .CLOSED => cb.runClosed now op
  | .HALF_OPEN => cb.runHalfOpen now op
  | .OPEN =>
    match cb.lastFailureTime with
    | some t =>
      if t + cb.config.resetTimeoutMs ≤ now then
        ({ cb with state := .HALF_OPEN, successCount := 0 }).runHalfOpen now op
      else
        ⟨cb, .error (.errObj ("Circuit breaker is OPEN")), false⟩
    | none => ⟨cb, .error (.errObj ("Circuit breaker is OPEN")), false⟩

/-- Iterated failing calls against the breaker, all at the same instant. -/
def CircuitBreaker.failN (cb : CircuitBreaker) (now : Nat) : Nat → CircuitBreaker
  | 0 => cb
  | n + 1 =>
    ((cb.failN now n).execute now
      (Except.error (Thrown.errObj ("boom")) : Except Thrown Bool)).breaker

/-- Iterated succeeding calls against the breaker, all at the same instant. -/
def CircuitBreaker.succN (cb : CircuitBreaker) (now : Nat) : Nat → CircuitBreaker
  | 0 => cb
  | n + 1 =>
    ((cb.succN now n).execute now (Except.ok true : Except Thrown Bool)).breaker

/-- `HealingResult` from `healing-service.ts`: the `error` field stores the
normalized error's message. -/
structure HealingResult where
  success : Bool
  taskId : String
  attemptNumber : Nat
  error : Option String := none
  circuitState : CircuitState
deriving Repr, DecidableEq

/-- `HealingStats` from `healing-service.ts`. -/
structure HealingStats where
  totalAttempts : Nat := 0
  successfulAttempts : Nat := 0
  failedAttempts : Nat := 0
  circuitOpenCount : Nat := 0
  currentCircuitState : CircuitState := .CLOSED
deriving Repr, DecidableEq

/-- The `HealingService` fields from `healing-service.ts`: the internal
breaker, the construction-time config (kept for `resetCircuit`), the aggregate
stats, and the per-task attempt counters (`attemptsByTask`, a `Map` embedded as
an association list in insertion order). -/
structure HealingService where
  circuitBreaker : CircuitBreaker
  circuitConfig : CircuitBreakerConfig
  stats : HealingStats := {}
  attemptsByTask : List (String × Nat) := []
deriving Repr, DecidableEq

/-- The `HealingService` constructor from `healing-service.ts`. -/
def HealingService.make (cfg : CircuitBreakerConfig) : HealingService :=
  { circuitBreaker := CircuitBreaker.fresh cfg, circuitConfig := cfg }

/-- `Map.get(taskId) || 0` on the embedded association list. -/
def mapGetOrZero (m : List (String × Nat)) (k : String) : Nat :=
  match m.find? (fun p => p.1 == k) with
  | some p => p.2
  | none => 0

/-- `Map.set(taskId, n)` on the embedded association list (updates in place,
appends when absent, as a JS `Map` does). -/
def mapSet (m : List (String × Nat)) (k : String) (v : Nat) : List (String × Nat) :=
  match m with
  | [] => [(k, v)]
  | p :: rest => if p.1 == k then (k, v) :: rest else p :: mapSet rest k v

/-- Result of one `attemptHealing` call: the updated service, the returned
`HealingResult`, and whether `heal()` was actually invoked. -/
structure HealingCall where
  service : HealingService
  result : HealingResult
  healInvoked : Bool
deriving Repr

/-- `HealingService.attemptHealing` from `healing-service.ts`, lines 94-171:
the per-task attempt counter is incremented, `totalAttempts` is incremented,
the operation runs through the circuit breaker, and the success / returned-
false / threw branches update the stats and build the result exactly as in the
source.  `op` is the outcome `heal()` would produce if invoked; `now` is the
current time given to the breaker. -/
def HealingService.attemptHealing (svc : HealingService) (taskId : String)
    (op : Except Thrown Bool) (now : Nat) : HealingCall :=
  let attemptNumber := mapGetOrZero svc.attemptsByTask taskId + 1
  let attempts := mapSet svc.attemptsByTask taskId attemptNumber
  let stats0 := { svc.stats with totalAttempts := svc.stats.totalAttempts + 1 }
  let er := svc.circuitBreaker.execute now op
  match er.result with
  | .ok success =>
    let stats1 :=
      if success then
        { stats0 with successfulAttempts := stats0.successfulAttempts + 1 }
      else
        { stats0 with failedAttempts := stats0.failedAttempts + 1 }
    let cs := er.breaker.state
    let stats2 := { stats1 with currentCircuitState := cs }
    { service := { svc with circuitBreaker := er.breaker, stats := stats2, attemptsByTask := attempts },
      result := { success := success, taskId := taskId, attemptNumber := attemptNumber, circuitState := cs },
      healInvoked := er.invoked }
  | .error e =>
    let stats1 := { stats0 with failedAttempts := stats0.failedAttempts + 1 }
    let newState := er.breaker.state
    let stats2 :=
      if newState = CircuitState.OPEN ∧ stats1.currentCircuitState ≠ CircuitState.OPEN then
        { stats1 with circuitOpenCount := stats1.circuitOpenCount + 1 }
      else stats1
    let stats3 := { stats2 with currentCircuitState := newState }
    { service := { svc with circuitBreaker := er.breaker, stats := stats3, attemptsByTask := attempts },
      result := { success := false, taskId := taskId, attemptNumber := attemptNumber, error := some e.toMessage, circuitState := newState },
      healInvoked := er.invoked }

/-- `HealingService.getCircuitState` from `healing-service.ts`. -/
def HealingService.getCircuitState (svc : HealingService) : CircuitState :=
  svc.circuitBreaker.state

/-- `HealingService.resetCircuit` from `healing-service.ts`, lines 181-186:
replaces the internal breaker with a freshly constructed one and sets the
stats' `currentCircuitState` back to CLOSED; nothing else is touched. -/
def HealingService.resetCircuit (svc : HealingService) : HealingService :=
  let freshBreaker := CircuitBreaker.fresh svc.circuitConfig
  { svc with circuitBreaker := freshBreaker, stats := { svc.stats with currentCircuitState := CircuitState.CLOSED } }

/-- The six workflow phases (`domain/state-entity`'s `Phase` type as used by
`state-service.ts` and its tests). -/
inductive Phase where
  | clarify
  | breakdown
  | implement
  | heal
  | deliver
  | complete
deriving Repr, DecidableEq

/-- The phase names as they appear in persisted state and error messages. -/
def Phase.toStr : Phase → String
  | .clarify => "clarify"
  | .breakdown => "breakdown"
  | .implement => "implement"
  | .heal => "heal"
  | .deliver => "deliver"
  | .complete => "complete"

/-- Modelled from the spec (§4.3): the allowed next phases of the missing
`domain/state-entity` module's `getNextAllowedPhases` — the six workflow edges
clarify→breakdown, breakdown→implement, implement→heal, implement→deliver,
heal→implement, deliver→complete. -/
def Phase.nextAllowed : Phase → List Phase
  | .clarify => [.breakdown]
  | .breakdown => [.implement]
  | .implement => [.heal, .deliver]
  | .heal => [.implement]
  | .deliver => [.complete]
  | .complete => []

/-- The workflow state record (`domain/state-entity`); only the fields the
verified operations read or write are carried. -/
structure State where
  phase : Phase
  startedAt : String
deriving Repr, DecidableEq

/-- Modelled from the spec (§4.3): `State.canTransitionTo` of the missing
`domain/state-entity` module — a transition is legal exactly when the target is
among the current phase's allowed next phases. -/
def State.canTransitionTo (s : State) (q : Phase) : Bool :=
  (s.phase.nextAllowed).contains q

/-- The error message built by `StateService.transitionToPhase`
(`state-service.ts`, lines 146-150). -/
def transitionErrMsg (p q : Phase) : String :=
  "Cannot transition from " ++ p.toStr ++ " to " ++ q.toStr ++
    ". Allowed transitions: " ++ String.intercalate (", ") (p.nextAllowed.map Phase.toStr)

/-- `StateService.transitionToPhase` from `state-service.ts`, lines 136-163:
the repository state is read (`none` means no state file), the transition is
validated against the entity's `canTransitionTo`, and on success the phase is
updated. -/
def StateService.transitionToPhase (repo : Option State) (q : Phase) :
    Except String State :=
  match repo with
  | none => .error ("State not found. Initialize state first.")
  | some s =>
    if s.canTransitionTo q then .ok { s with phase := q }
    else .error (transitionErrMsg s.phase q)

/-- Result of `initializeState`: the repository contents afterwards, the state
returned to the caller, and whether the already-exists warning was logged. -/
structure InitStateResult where
  repoAfter : Option State
  returned : State
  warnedExisting : Bool
deriving Repr, DecidableEq

/-- `StateService.initializeState` from `state-service.ts`, lines 88-114: if a
state already exists it is returned unchanged with a warning; otherwise a new
state is created with the requested phase and the current timestamp and
persisted. -/
def StateService.initializeState (repo : Option State) (phase : Phase)
    (now : String) : InitStateResult :=
  match repo with
  | some existing => ⟨some existing, existing, true⟩
  | none =>
    let st : State := ⟨phase, now⟩
    ⟨some st, st, false⟩

/-- A `SagaStep` (`core/saga-manager`): `name` and `description` are data; each
of the two function fields `execute` / `compensate` is embedded as a flag
saying whether the field holds a function (the `SagaService` validator checks
`typeof ... === 'function'`) together with the outcome the function produces
when called (`Except.error` for a throw). -/
structure SagaStep where
  name : String
  description : String
  executeIsFn : Bool := true
  compensateIsFn : Bool := true
  execOutcome : Except Thrown Unit := .ok ()
  compOutcome : Except Thrown Unit := .ok ()

/-- Whether a step's `execute()` returns without throwing. -/
def stepExecOk (s : SagaStep) : Bool :=
  match s.execOutcome with
  | .ok _ => true
  | .error _ => false

/-- Whether a step's `compensate()` returns without throwing. -/
def stepCompOk (s : SagaStep) : Bool :=
  match s.compOutcome with
  | .ok _ => true
  | .error _ => false

/-- An observable call made by the saga executor: running a step's `execute`
or its `compensate`. -/
inductive SagaEv where
  | execEv (name : String)
  | compEv (name : String)
deriving Repr, DecidableEq

/-- `SagaResult` (`core/saga-manager`): the `error` field stores the
normalized error's message;  `rollbackSuccessful` is absent when no rollback
occurred. -/
structure SagaResult where
  success : Bool
  completedSteps : List String
  failedStep : Option String := none
  errorMsg : Option String := none
  rollbackPerformed : Bool
  rollbackSuccessful : Option Bool := none
deriving Repr, DecidableEq

/-- Intermediate result of the forward pass of the executor. -/
structure ExecPhaseOut where
  completed : List SagaStep
  failure : Option (String × Thrown)
  trace : List SagaEv

/-- Modelled from the spec (§4.4, steps 1-2): run the steps in order, calling
each `execute()`; on a throw, stop, remembering the failed step's name and the
captured error.  The trace records each `execute` call made. -/
def execPhase : List SagaStep → ExecPhaseOut
  | [] => ⟨[], none, []⟩
  | s :: rest =>
    match s.execOutcome with
    | .ok _ =>
      let r := execPhase rest
      ⟨s :: r.completed, r.failure, .execEv s.name :: r.trace⟩
    | .error e => ⟨[], some (s.name, e), [.execEv s.name]⟩

/-- Modelled from the spec (§4.4, steps 3-5): `SagaExecutor.execute`.  All
steps succeeding yields a success result with the step names in input order.
A failure triggers rollback: every completed step's `compensate()` is called
in strict reverse order — a throwing compensation is caught and recorded, the
earlier steps are still compensated — and `rollbackSuccessful` is true exactly
when no compensation threw.  The second component is the observable call
trace. -/
def SagaExecutor.execute (steps : List SagaStep) : SagaResult × List SagaEv :=
  let r := execPhase steps
  match r.failure with
  | none =>
    ({ success := true, completedSteps := r.completed.map (fun s => s.name), rollbackPerformed := false }, r.trace)
  | some (fn, e) =>
    let res : SagaResult :=
      { success := false, completedSteps := r.completed.map (fun s => s.name),
        failedStep := some fn, errorMsg := some e.toMessage,
        rollbackPerformed := true, rollbackSuccessful := some (r.completed.all stepCompOk) }
    (res, r.trace ++ r.completed.reverse.map (fun s => SagaEv.compEv s.name))

/-- `ValidationResult` from the `SagaService` in `state-service.test.ts`. -/
structure ValidationResult where
  valid : Bool
  errors : List String
deriving Repr, DecidableEq

/-- The per-step checks of `SagaService.validateSteps` (`state-service.test.ts`
lines 581-597), for the step at index `i`: JavaScript's
`!step.name || step.name.trim() === ''` on a string is equivalent to the
trimmed string being empty, and likewise for `description`. -/
def validateStep (i : Nat) (s : SagaStep) : List String :=
  (if s.name.trim = "" then ["Step " ++ toString i ++ ": name is required"] else []) ++
  (if s.description.trim = "" then ["Step " ++ toString i ++ ": description is required"] else []) ++
  (if s.executeIsFn then [] else ["Step " ++ toString i ++ " (" ++ s.name ++ "): execute must be a function"]) ++
  (if s.compensateIsFn then [] else ["Step " ++ toString i ++ " (" ++ s.name ++ "): compensate must be a function"])

/-- The indexed `forEach` of `validateSteps`, collecting each step's errors in
order, starting at index `i`. -/
def stepErrorsFrom (i : Nat) : List SagaStep → List String
  | [] => []
  | s :: rest => validateStep i s ++ stepErrorsFrom (i + 1) rest

/-- `stepNames.filter((name, index) => stepNames.indexOf(name) !== index)`
walked from index `j` over the suffix, against the full `all` list. -/
def dupNamesAux (all : List String) : Nat → List String → List String
  | _, [] => []
  | j, n :: rest =>
    (if all.indexOf n ≠ j then [n] else []) ++ dupNamesAux all (j + 1) rest

/-- The duplicate step names (every non-first occurrence), as computed by
`validateSteps`. -/
def dupNames (names : List String) : List String :=
  dupNamesAux names 0 names

/-- `SagaService.validateSteps` from `state-service.test.ts`, lines 572-614:
an empty-array error, then the per-step field checks in index order, then the
duplicate-names check; `valid` is true exactly when no error was collected. -/
def SagaService.validateSteps (steps : List SagaStep) : ValidationResult :=
  let base := if steps.length = 0 then ["Steps array cannot be empty"] else []
  let perStep := stepErrorsFrom 0 steps
  let d := dupNames (steps.map (fun s => s.name))
  let dupErr := if d.isEmpty then [] else ["Duplicate step names found: " ++ String.intercalate (", ") d]
  let errors := base ++ perStep ++ dupErr
  ⟨errors.isEmpty, errors⟩

/-- `SagaService.executeSaga` from `state-service.test.ts`, lines 514-551:
steps are validated first; an invalid list throws
`Saga validation failed: <errors joined>` before any step runs; a valid list
is handed to a fresh `SagaExecutor`. -/
def SagaService.executeSaga (steps : List SagaStep) :
    Except String (SagaResult × List SagaEv) :=
  let v := SagaService.validateSteps steps
  if v.valid then .ok (SagaExecutor.execute steps)
  else .error ("Saga validation failed: " ++ String.intercalate (", ") v.errors)

/-- Task lifecycle status (`core/task-parser`'s `Task.status`). -/
inductive TaskStatus where
  | pending
  | in_progress
  | completed
  | failed
deriving Repr, DecidableEq

/-- The task summary record kept in the task index (`core/index-manager`);
only the fields `getNextTask` reads are carried. -/
structure TaskRecord where
  status : TaskStatus
  priority : Int
deriving Repr, DecidableEq

/-- Modelled from the spec (§4.3): a task is eligible for selection when its
status is `pending` or `in_progress`. -/
def taskEligible (r : TaskRecord) : Bool :=
  match r.status with
  | .pending => true
  | .in_progress => true
  | .completed => false
  | .failed => false

/-- First entry attaining the minimal priority: a later entry replaces the
current best only when its priority is strictly lower, so ties keep the
earlier entry. -/
def argminFirst : List (String × TaskRecord) → Option (String × TaskRecord)
  | [] => none
  | p :: rest =>
    match argminFirst rest with
    | none => some p
    | some q => some (if p.2.priority ≤ q.2.priority then p else q)

/-- Modelled from the spec (§4.3): `IndexManager.getNextTask` of the missing
`core/index-manager` module — among the index entries (in insertion order)
whose status is `pending` or `in_progress`, the id of the one with the lowest
priority, ties broken by first match; `none` when no task is eligible. -/
def IndexManager.getNextTask (tasks : List (String × TaskRecord)) : Option String :=
  (argminFirst (tasks.filter (fun p => taskEligible p.2))).map (fun p => p.1)

lemma failN_closed (cfg : CircuitBreakerConfig) (t : Nat) (n : Nat)
    (h : n < cfg.failureThreshold) :
    (CircuitBreaker.fresh cfg).failN t n = { CircuitBreaker.fresh cfg with failureCount := n } := by
  induction n with
  | zero => rfl
  | succ m ih =>
    have hm : m < cfg.failureThreshold := Nat.lt_of_succ_lt h
    have hnot : ¬ cfg.failureThreshold ≤ m + 1 := Nat.not_le.mpr h
    rw [CircuitBreaker.failN, ih hm]
    simp [CircuitBreaker.execute, CircuitBreaker.fresh, CircuitBreaker.runClosed, hnot]

lemma failN_opens (cfg : CircuitBreakerConfig) (t : Nat)
    (h : 0 < cfg.failureThreshold) :
    (CircuitBreaker.fresh cfg).failN t cfg.failureThreshold =
      { CircuitBreaker.fresh cfg with
        state := CircuitState.OPEN
        failureCount := cfg.failureThreshold
        lastFailureTime := some t } := by
  obtain ⟨m, hm⟩ : ∃ m, cfg.failureThreshold = m + 1 :=
    ⟨cfg.failureThreshold - 1, (Nat.succ_pred_eq_of_pos h).symm⟩
  have hmlt : m < cfg.failureThreshold := by omega
  have hge : cfg.failureThreshold ≤ m + 1 := by omega
  conv_lhs => rw [hm]
  rw [CircuitBreaker.failN, failN_closed cfg t m hmlt]
  simp [CircuitBreaker.execute, CircuitBreaker.fresh, CircuitBreaker.runClosed, hge, hm]

lemma execute_open_rejects {α : Type} (cb : CircuitBreaker) (now tf : Nat)
    (hst : cb.state = CircuitState.OPEN) (hlf : cb.lastFailureTime = some tf)
    (htime : now < tf + cb.config.resetTimeoutMs) (op : Except Thrown α) :
    cb.execute now op =
      ⟨cb, .error (.errObj ("Circuit breaker is OPEN")), false⟩ := by
  have hnot : ¬ tf + cb.config.resetTimeoutMs ≤ now := Nat.not_le.mpr htime
  simp [CircuitBreaker.execute, hst, hlf, hnot]

lemma attemptHealing_blocked (svc : HealingService) (taskId : String)
    (op : Except Thrown Bool) (now tf : Nat)
    (hst : svc.circuitBreaker.state = CircuitState.OPEN)
    (hlf : svc.circuitBreaker.lastFailureTime = some tf)
    (htime : now < tf + svc.circuitBreaker.config.resetTimeoutMs) :
    let c := svc.attemptHealing taskId op now
    c.result.success = false ∧ c.result.error = some ("Circuit breaker is OPEN") ∧
      c.healInvoked = false := by
  have hexec := execute_open_rejects svc.circuitBreaker now tf hst hlf htime op
  simp [HealingService.attemptHealing, hexec, Thrown.toMessage]

/-- C2: starting from CLOSED, after `failureThreshold` consecutive failures
the breaker state is OPEN and one fewer failure leaves it CLOSED; while OPEN
before the reset timeout, `execute` fails with the message
"Circuit breaker is OPEN" without invoking the wrapped operation, and
`HealingService.attemptHealing` then returns `success = false` with that error
without calling `heal()`. -/
theorem circuit_breaker_open_fail_fast (cfg : CircuitBreakerConfig) (t : Nat)
    (hthr : 0 < cfg.failureThreshold) :
    ((CircuitBreaker.fresh cfg).failN t cfg.failureThreshold).state = CircuitState.OPEN ∧
    ((CircuitBreaker.fresh cfg).failN t (cfg.failureThreshold - 1)).state = CircuitState.CLOSED ∧
    (∀ (cb : CircuitBreaker) (now tf : Nat) (op : Except Thrown Bool),
      cb.state = CircuitState.OPEN → cb.lastFailureTime = some tf →
      now < tf + cb.config.resetTimeoutMs →
      cb.execute now op = ⟨cb, .error (.errObj ("Circuit breaker is OPEN")), false⟩) ∧
    (∀ (svc : HealingService) (taskId : String) (op : Except Thrown Bool) (now tf : Nat),
      svc.circuitBreaker.state = CircuitState.OPEN →
      svc.circuitBreaker.lastFailureTime = some tf →
      now < tf + svc.circuitBreaker.config.resetTimeoutMs →
      (svc.attemptHealing taskId op now).result.success = false ∧
      (svc.attemptHealing taskId op now).result.error = some ("Circuit breaker is OPEN") ∧
      (svc.attemptHealing taskId op now).healInvoked = false) := by
  refine ⟨?_, ?_, ?_, ?_⟩
  · rw [failN_opens cfg t hthr]
  · rw [failN_closed cfg t (cfg.failureThreshold - 1) (by omega)]
    rfl
  · intro cb now tf op hst hlf htime
    exact execute_open_rejects cb now tf hst hlf htime op
  · intro svc taskId op now tf hst hlf htime
    exact attemptHealing_blocked svc taskId op now tf hst hlf htime

/-- Witness for C2 at `failureThreshold = 2`, an OPEN breaker that failed at
time 100, and a call at time 150 (before the 60000 ms timeout). -/
theorem circuit_breaker_open_fail_fast_witness :
    ((CircuitBreaker.fresh ⟨2, 2, 60000⟩).failN 100 2).state = CircuitState.OPEN ∧
    ((CircuitBreaker.fresh ⟨2, 2, 60000⟩).failN 100 1).state = CircuitState.CLOSED ∧
    (CircuitBreaker.mk ⟨2, 2, 60000⟩ CircuitState.OPEN 2 0 (some 100) none).execute 150
        (Except.ok true : Except Thrown Bool) =
      ⟨CircuitBreaker.mk ⟨2, 2, 60000⟩ CircuitState.OPEN 2 0 (some 100) none,
        .error (.errObj ("Circuit breaker is OPEN")), false⟩ ∧
    ((HealingService.mk (CircuitBreaker.mk ⟨2, 2, 60000⟩ CircuitState.OPEN 2 0 (some 100) none)
        ⟨2, 2, 60000⟩ {} []).attemptHealing ("task") (Except.ok true) 150).result.success = false ∧
    ((HealingService.mk (CircuitBreaker.mk ⟨2, 2, 60000⟩ CircuitState.OPEN 2 0 (some 100) none)
        ⟨2, 2, 60000⟩ {} []).attemptHealing ("task") (Except.ok true) 150).result.error =
      some ("Circuit breaker is OPEN") ∧
    ((HealingService.mk (CircuitBreaker.mk ⟨2, 2, 60000⟩ CircuitState.OPEN 2 0 (some 100) none)
        ⟨2, 2, 60000⟩ {} []).attemptHealing ("task") (Except.ok true) 150).healInvoked = false := by
  have h := circuit_breaker_open_fail_fast ⟨2, 2, 60000⟩ 100 (by decide)
  have h4 := h.2.2.2 (HealingService.mk
    (CircuitBreaker.mk ⟨2, 2, 60000⟩ CircuitState.OPEN 2 0 (some 100) none) ⟨2, 2, 60000⟩ {} [])
    ("task") (Except.ok true) 150 100 rfl rfl (by decide)
  exact ⟨h.1, h.2.1,
    h.2.2.1 (CircuitBreaker.mk ⟨2, 2, 60000⟩ CircuitState.OPEN 2 0 (some 100) none) 150 100
      (Except.ok true) rfl rfl (by decide), h4.1, h4.2.1, h4.2.2⟩

lemma succN_halfopen (cb : CircuitBreaker) (t : Nat) (n : Nat)
    (hst : cb.state = CircuitState.HALF_OPEN) (hsc : cb.successCount = 0)
    (h : n < cb.config.successThreshold) :
    cb.succN t n = { cb with successCount := n } := by
  induction n with
  | zero =>
    show cb = _
    cases cb
    simp_all
  | succ m ih =>
    have hm : m < cb.config.successThreshold := Nat.lt_of_succ_lt h
    have hnot : ¬ cb.config.successThreshold ≤ m + 1 := Nat.not_le.mpr h
    rw [CircuitBreaker.succN, ih hm]
    simp [CircuitBreaker.execute, hst, CircuitBreaker.runHalfOpen, hnot]

lemma succN_closes (cb : CircuitBreaker) (t : Nat)
    (hst : cb.state = CircuitState.HALF_OPEN) (hsc : cb.successCount = 0)
    (h : 0 < cb.config.successThreshold) :
    cb.succN t cb.config.successThreshold =
      { cb with
        state := CircuitState.CLOSED
        failureCount := 0
        successCount := 0
        lastResetTime := some t } := by
  obtain ⟨m, hm⟩ : ∃ m, cb.config.successThreshold = m + 1 :=
    ⟨cb.config.successThreshold - 1, (Nat.succ_pred_eq_of_pos h).symm⟩
  have hmlt : m < cb.config.successThreshold := by omega
  have hge : cb.config.successThreshold ≤ m + 1 := by omega
  conv_lhs => rw [hm]
  rw [CircuitBreaker.succN, succN_halfopen cb t m hst hsc hmlt]
  simp [CircuitBreaker.execute, hst, CircuitBreaker.runHalfOpen, hge]

lemma execute_open_probe {α : Type} (cb : CircuitBreaker) (now tf : Nat)
    (hst : cb.state = CircuitState.OPEN) (hlf : cb.lastFailureTime = some tf)
    (htime : tf + cb.config.resetTimeoutMs ≤ now) (op : Except Thrown α) :
    cb.execute now op =
      ({ cb with state := CircuitState.HALF_OPEN, successCount := 0 }).runHalfOpen now op := by
  simp [CircuitBreaker.execute, hst, hlf, htime]

/-- C6: after `resetTimeoutMs` has elapsed since the last failure, the next
`execute` call lazily moves the breaker from OPEN to HALF_OPEN (witnessed by
the probe running and the breaker landing in HALF_OPEN with one recorded
success when `successThreshold` is not yet reached); `successThreshold`
consecutive successes in HALF_OPEN close it with all counters reset to zero;
and any single failure while HALF_OPEN reopens it immediately. -/
theorem circuit_breaker_recovery_cycle :
    (∀ (cb : CircuitBreaker) (now tf : Nat), cb.state = CircuitState.OPEN →
      cb.lastFailureTime = some tf → tf + cb.config.resetTimeoutMs ≤ now →
      2 ≤ cb.config.successThreshold →
      cb.execute now (Except.ok true : Except Thrown Bool) =
        ⟨{ cb with state := CircuitState.HALF_OPEN, successCount := 1 }, .ok true, true⟩) ∧
    (∀ (cb : CircuitBreaker) (t : Nat), cb.state = CircuitState.HALF_OPEN →
      cb.successCount = 0 → 0 < cb.config.successThreshold →
      cb.succN t cb.config.successThreshold =
        { cb with
          state := CircuitState.CLOSED
          failureCount := 0
          successCount := 0
          lastResetTime := some t }) ∧
    (∀ (cb : CircuitBreaker) (now : Nat) (e : Thrown), cb.state = CircuitState.HALF_OPEN →
      cb.execute now (Except.error e : Except Thrown Bool) =
        ⟨{ cb with state := CircuitState.OPEN, successCount := 0, lastFailureTime := some now },
          .error e, true⟩) := by
  refine ⟨?_, ?_, ?_⟩
  · intro cb now tf hst hlf htime hthr
    rw [execute_open_probe cb now tf hst hlf htime]
    have hnot : ¬ cb.config.successThreshold ≤ 0 + 1 := by omega
    simp [CircuitBreaker.runHalfOpen, hnot]
  · intro cb t hst hsc hthr
    exact succN_closes cb t hst hsc hthr
  · intro cb now e hst
    simp [CircuitBreaker.execute, hst, CircuitBreaker.runHalfOpen]

/-- Witness for C6: an OPEN breaker that failed at time 100 probed at time
70000, a HALF_OPEN breaker closed by 2 successes, and a HALF_OPEN breaker
reopened by one failure. -/
theorem circuit_breaker_recovery_cycle_witness :
    (CircuitBreaker.mk ⟨5, 2, 60000⟩ CircuitState.OPEN 5 0 (some 100) none).execute 70000
        (Except.ok true : Except Thrown Bool) =
      ⟨CircuitBreaker.mk ⟨5, 2, 60000⟩ CircuitState.HALF_OPEN 5 1 (some 100) none,
        .ok true, true⟩ ∧
    (CircuitBreaker.mk ⟨5, 2, 60000⟩ CircuitState.HALF_OPEN 5 0 (some 100) none).succN 70000 2 =
      CircuitBreaker.mk ⟨5, 2, 60000⟩ CircuitState.CLOSED 0 0 (some 100) (some 70000) ∧
    (CircuitBreaker.mk ⟨5, 2, 60000⟩ CircuitState.HALF_OPEN 5 1 (some 100) none).execute 70000
        (Except.error (Thrown.errObj ("probe failed")) : Except Thrown Bool) =
      ⟨CircuitBreaker.mk ⟨5, 2, 60000⟩ CircuitState.OPEN 5 0 (some 70000) none,
        .error (Thrown.errObj ("probe failed")), true⟩ := by
  refine ⟨?_, ?_, ?_⟩
  · exact circuit_breaker_recovery_cycle.1
      (CircuitBreaker.mk ⟨5, 2, 60000⟩ CircuitState.OPEN 5 0 (some 100) none) 70000 100
      rfl rfl (by decide) (by decide)
  · exact circuit_breaker_recovery_cycle.2.1
      (CircuitBreaker.mk ⟨5, 2, 60000⟩ CircuitState.HALF_OPEN 5 0 (some 100) none) 70000
      rfl rfl (by decide)
  · exact circuit_breaker_recovery_cycle.2.2
      (CircuitBreaker.mk ⟨5, 2, 60000⟩ CircuitState.HALF_OPEN 5 1 (some 100) none) 70000
      (Thrown.errObj ("probe failed")) rfl

/-- C7: with the breaker CLOSED (so `heal()` actually runs), a `heal()` that
resolves `false` yields `success = false` with no error field set, while a
`heal()` that throws yields `success = false` with the error's message — for a
non-`Error` throw, the thrown value converted to a string.  Together with the
open-breaker behavior this separates "ran and reported failure", "threw", and
"blocked by open breaker". -/
theorem healing_failure_modes :
    (∀ (svc : HealingService) (taskId : String) (now : Nat),
      svc.circuitBreaker.state = CircuitState.CLOSED →
      (svc.attemptHealing taskId (Except.ok false) now).result.success = false ∧
      (svc.attemptHealing taskId (Except.ok false) now).result.error = none ∧
      (svc.attemptHealing taskId (Except.ok false) now).healInvoked = true) ∧
    (∀ (svc : HealingService) (taskId : String) (now : Nat) (e : Thrown),
      svc.circuitBreaker.state = CircuitState.CLOSED →
      (svc.attemptHealing taskId (Except.error e) now).result.success = false ∧
      (svc.attemptHealing taskId (Except.error e) now).result.error = some e.toMessage ∧
      (svc.attemptHealing taskId (Except.error e) now).healInvoked = true) ∧
    (∀ v : String, Thrown.toMessage (.nonErr v) = v) := by
  refine ⟨?_, ?_, fun v => rfl⟩
  · intro svc taskId now hst
    simp [HealingService.attemptHealing, CircuitBreaker.execute, hst, CircuitBreaker.runClosed]
  · intro svc taskId now e hst
    by_cases h : svc.circuitBreaker.config.failureThreshold ≤ svc.circuitBreaker.failureCount + 1 <;>
      simp [HealingService.attemptHealing, CircuitBreaker.execute, hst,
        CircuitBreaker.runClosed, h]

/-- Witness for C7: a fresh default service, a `heal()` returning `false` and
a `heal()` throwing the string "String error". -/
theorem healing_failure_modes_witness :
    ((HealingService.make {}).attemptHealing ("task") (Except.ok false) 0).result.success = false ∧
    ((HealingService.make {}).attemptHealing ("task") (Except.ok false) 0).result.error = none ∧
    ((HealingService.make {}).attemptHealing ("task")
        (Except.error (Thrown.nonErr ("String error"))) 0).result.error = some ("String error") := by
  have h1 := healing_failure_modes.1 (HealingService.make {}) ("task") 0 rfl
  have h2 := healing_failure_modes.2.1 (HealingService.make {}) ("task") 0
    (Thrown.nonErr ("String error")) rfl
  exact ⟨h1.1, h1.2.1, h2.2.1⟩

lemma attemptHealing_attemptNumber (svc : HealingService) (taskId : String)
    (op : Except Thrown Bool) (now : Nat) :
    (svc.attemptHealing taskId op now).result.attemptNumber =
      mapGetOrZero svc.attemptsByTask taskId + 1 := by
  unfold HealingService.attemptHealing
  cases h : (svc.circuitBreaker.execute now op).result <;> simp [h]

/-- C9: `resetCircuit` replaces the internal breaker with a fresh one (so the
circuit state reads CLOSED afterwards) while leaving the per-task attempt
counters and the four aggregate counters untouched; the next `attemptHealing`
for any task therefore continues its attempt-number sequence exactly as it
would have without the reset. -/
theorem reset_circuit_frame (svc : HealingService) :
    (svc.resetCircuit).circuitBreaker = CircuitBreaker.fresh svc.circuitConfig ∧
    (svc.resetCircuit).getCircuitState = CircuitState.CLOSED ∧
    (svc.resetCircuit).attemptsByTask = svc.attemptsByTask ∧
    (svc.resetCircuit).stats.totalAttempts = svc.stats.totalAttempts ∧
    (svc.resetCircuit).stats.successfulAttempts = svc.stats.successfulAttempts ∧
    (svc.resetCircuit).stats.failedAttempts = svc.stats.failedAttempts ∧
    (svc.resetCircuit).stats.circuitOpenCount = svc.stats.circuitOpenCount ∧
    (∀ (taskId : String) (op : Except Thrown Bool) (now : Nat),
      ((svc.resetCircuit).attemptHealing taskId op now).result.attemptNumber =
        (svc.attemptHealing taskId op now).result.attemptNumber ∧
      ((svc.resetCircuit).attemptHealing taskId op now).result.attemptNumber =
        mapGetOrZero svc.attemptsByTask taskId + 1) := by
  refine ⟨rfl, rfl, rfl, rfl, rfl, rfl, rfl, ?_⟩
  intro taskId op now
  rw [attemptHealing_attemptNumber, attemptHealing_attemptNumber]
  exact ⟨rfl, rfl⟩

/-- Witness for C9: a service that has already attempted task "t" twice (and
whose breaker is OPEN); after `resetCircuit` the circuit reads CLOSED, the
counters survive, and the next attempt for "t" is numbered 3. -/
theorem reset_circuit_frame_witness :
    ((HealingService.mk (CircuitBreaker.mk ⟨2, 2, 60000⟩ CircuitState.OPEN 2 0 (some 100) none)
        ⟨2, 2, 60000⟩ ⟨2, 0, 2, 1, CircuitState.OPEN⟩ [(("t"), 2)]).resetCircuit).getCircuitState =
      CircuitState.CLOSED ∧
    ((HealingService.mk (CircuitBreaker.mk ⟨2, 2, 60000⟩ CircuitState.OPEN 2 0 (some 100) none)
        ⟨2, 2, 60000⟩ ⟨2, 0, 2, 1, CircuitState.OPEN⟩ [(("t"), 2)]).resetCircuit).stats.circuitOpenCount = 1 ∧
    (((HealingService.mk (CircuitBreaker.mk ⟨2, 2, 60000⟩ CircuitState.OPEN 2 0 (some 100) none)
        ⟨2, 2, 60000⟩ ⟨2, 0, 2, 1, CircuitState.OPEN⟩ [(("t"), 2)]).resetCircuit).attemptHealing
        ("t") (Except.ok true) 150).result.attemptNumber = 3 := by
  have h := reset_circuit_frame (HealingService.mk
    (CircuitBreaker.mk ⟨2, 2, 60000⟩ CircuitState.OPEN 2 0 (some 100) none)
    ⟨2, 2, 60000⟩ ⟨2, 0, 2, 1, CircuitState.OPEN⟩ [(("t"), 2)])
  refine ⟨h.2.1, ?_, ?_⟩
  · rw [h.2.2.2.2.2.2.1]
  · rw [(h.2.2.2.2.2.2.2 ("t") (Except.ok true) 150).2]
    rfl

/-- The six legal workflow edges, as (current, requested) pairs. -/
def workflowEdges : List (Phase × Phase) :=
  [(Phase.clarify, Phase.breakdown), (Phase.breakdown, Phase.implement),
   (Phase.implement, Phase.heal), (Phase.implement, Phase.deliver),
   (Phase.heal, Phase.implement), (Phase.deliver, Phase.complete)]

/-- C4: `transitionToPhase` succeeds exactly on the six workflow edges
clarify→breakdown, breakdown→implement, implement→heal, implement→deliver,
heal→implement, deliver→complete; every other requested transition fails with
the message built from the current phase, the requested phase, and the list of
allowed next phases. -/
theorem phase_transition_legality (s : State) (q : Phase) :
    (s.canTransitionTo q = true ↔ (s.phase, q) ∈ workflowEdges) ∧
    (s.canTransitionTo q = true →
      StateService.transitionToPhase (some s) q = .ok { s with phase := q }) ∧
    (s.canTransitionTo q = false →
      StateService.transitionToPhase (some s) q = .error (transitionErrMsg s.phase q)) := by
  refine ⟨?_, ?_, ?_⟩
  · obtain ⟨p, st⟩ := s
    cases p <;> cases q <;> simp [State.canTransitionTo, Phase.nextAllowed, workflowEdges]
  · intro h
    simp [StateService.transitionToPhase, h]
  · intro h
    simp [StateService.transitionToPhase, h]

/-- Witness for C4: from `clarify`, the transition to `breakdown` succeeds and
the transition to `deliver` fails with the message naming both phases and the
allowed list. -/
theorem phase_transition_legality_witness :
    StateService.transitionToPhase (some ⟨Phase.clarify, ("t0")⟩) Phase.breakdown =
      .ok ⟨Phase.breakdown, ("t0")⟩ ∧
    StateService.transitionToPhase (some ⟨Phase.clarify, ("t0")⟩) Phase.deliver =
      .error ("Cannot transition from clarify to deliver. Allowed transitions: breakdown") := by
  constructor
  · exact (phase_transition_legality ⟨Phase.clarify, ("t0")⟩ Phase.breakdown).2.1 rfl
  · have h := (phase_transition_legality ⟨Phase.clarify, ("t0")⟩ Phase.deliver).2.2 rfl
    rw [h]
    rfl

/-- C8: `initializeState` is first-write-wins: when a state already exists,
any call returns the existing state unchanged (logging the already-exists
warning) and leaves the repository untouched; in particular a second
`initializeState` after a first one is a no-op on the state. -/
theorem state_init_first_write_wins (s : State) (p : Phase) (now : String)
    (p1 p2 : Phase) (t1 t2 : String) :
    StateService.initializeState (some s) p now = ⟨some s, s, true⟩ ∧
    (StateService.initializeState
        (StateService.initializeState none p1 t1).repoAfter p2 t2 =
      ⟨(StateService.initializeState none p1 t1).repoAfter,
        (StateService.initializeState none p1 t1).returned, true⟩) := by
  exact ⟨rfl, rfl⟩

/-- Witness for C8: initializing at `clarify`, then again at `breakdown`,
returns the original `clarify` state unchanged with the warning logged. -/
theorem state_init_first_write_wins_witness :
    StateService.initializeState (some ⟨Phase.clarify, ("t0")⟩) Phase.breakdown ("t1") =
      ⟨some ⟨Phase.clarify, ("t0")⟩, ⟨Phase.clarify, ("t0")⟩, true⟩ ∧
    StateService.initializeState
        (StateService.initializeState none Phase.clarify ("t0")).repoAfter Phase.breakdown ("t1") =
      ⟨some ⟨Phase.clarify, ("t0")⟩, ⟨Phase.clarify, ("t0")⟩, true⟩ := by
  have h := state_init_first_write_wins ⟨Phase.clarify, ("t0")⟩ Phase.breakdown ("t1")
    Phase.clarify Phase.breakdown ("t0") ("t1")
  exact ⟨h.1, h.2⟩

lemma execPhase_all_ok (steps : List SagaStep)
    (h : ∀ s ∈ steps, stepExecOk s = true) :
    execPhase steps = ⟨steps, none, steps.map (fun s => SagaEv.execEv s.name)⟩ := by
  induction steps with
  | nil => rfl
  | cons s rest ih =>
    have hs : stepExecOk s = true := h s (List.mem_cons_self s rest)
    have hrest : ∀ x ∈ rest, stepExecOk x = true :=
      fun x hx => h x (List.mem_cons_of_mem s hx)
    cases he : s.execOutcome with
    | ok u => simp [execPhase, he, ih hrest]
    | error e => simp [stepExecOk, he] at hs

lemma execPhase_fail (steps : List SagaStep) (k : Nat) (hk : k < steps.length)
    (e : Thrown) (hfail : (steps.get ⟨k, hk⟩).execOutcome = .error e)
    (hpre : ∀ i (hi : i < steps.length), i < k → stepExecOk (steps.get ⟨i, hi⟩) = true) :
    execPhase steps = ⟨steps.take k, some ((steps.get ⟨k, hk⟩).name, e),
      (steps.take (k + 1)).map (fun s => SagaEv.execEv s.name)⟩ := by
  induction steps generalizing k with
  | nil => exact absurd hk (Nat.not_lt_zero k)
  | cons s rest ih =>
    cases k with
    | zero =>
      simp only [List.get] at hfail
      simp [execPhase, hfail]
    | succ j =>
      have hs : stepExecOk s = true := hpre 0 (Nat.zero_lt_succ _) (Nat.zero_lt_succ j)
      have hjlen : j < rest.length := Nat.lt_of_succ_lt_succ hk
      have hfail' : (rest.get ⟨j, hjlen⟩).execOutcome = .error e := hfail
      have hpre' : ∀ i (hi : i < rest.length), i < j → stepExecOk (rest.get ⟨i, hi⟩) = true :=
        fun i hi hij => hpre (i + 1) (Nat.succ_lt_succ hi) (Nat.succ_lt_succ hij)
      cases he : s.execOutcome with
      | ok u => simp [execPhase, he, ih j hjlen hfail' hpre']
      | error e2 => simp [stepExecOk, he] at hs

/-- C3: when every step's `execute` succeeds, the saga succeeds with
`completedSteps` equal to the step names in input order, no rollback, and a
trace of exactly the `execute` calls in order; in particular the empty step
list returns success with no completed steps and no rollback. -/
theorem saga_success_path (steps : List SagaStep)
    (h : ∀ s ∈ steps, stepExecOk s = true) :
    SagaExecutor.execute steps =
      (⟨true, steps.map (fun s => s.name), none, none, false, none⟩,
        steps.map (fun s => SagaEv.execEv s.name)) ∧
    SagaExecutor.execute ([] : List SagaStep) =
      (⟨true, [], none, none, false, none⟩, ([] : List SagaEv)) := by
  constructor
  · simp [SagaExecutor.execute, execPhase_all_ok steps h]
  · rfl

/-- Witness for C3: three all-succeeding steps, executed in order. -/
theorem saga_success_path_witness :
    SagaExecutor.execute
        [{ name := ("step1"), description := ("First") },
         { name := ("step2"), description := ("Second") },
         { name := ("step3"), description := ("Third") }] =
      (⟨true, [("step1"), ("step2"), ("step3")], none, none, false, none⟩,
        [SagaEv.execEv ("step1"), SagaEv.execEv ("step2"), SagaEv.execEv ("step3")]) ∧
    SagaExecutor.execute ([] : List SagaStep) =
      (⟨true, [], none, none, false, none⟩, ([] : List SagaEv)) := by
  have h := saga_success_path
    [{ name := ("step1"), description := ("First") },
     { name := ("step2"), description := ("Second") },
     { name := ("step3"), description := ("Third") }]
    (by intro s hs; fin_cases hs <;> rfl)
  exact ⟨h.1, h.2⟩

/-- C1: when steps `0..k-1` succeed and step `k`'s `execute` throws, the
executor's observable calls are the `execute`s of steps `0..k` followed by the
`compensate`s of exactly the steps `0..k-1` in strictly decreasing index
order (a throwing `compensate` does not remove any later compensation from
the trace), the result records the failure and rollback, and
`rollbackSuccessful = false` exactly when at least one compensation threw. -/
theorem saga_rollback_order (steps : List SagaStep) (k : Nat) (hk : k < steps.length)
    (e : Thrown) (hfail : (steps.get ⟨k, hk⟩).execOutcome = .error e)
    (hpre : ∀ i (hi : i < steps.length), i < k → stepExecOk (steps.get ⟨i, hi⟩) = true) :
    (SagaExecutor.execute steps).2 =
      (steps.take (k + 1)).map (fun s => SagaEv.execEv s.name) ++
        ((steps.take k).reverse).map (fun s => SagaEv.compEv s.name) ∧
    (SagaExecutor.execute steps).1 =
      ⟨false, (steps.take k).map (fun s => s.name), some ((steps.get ⟨k, hk⟩).name),
        some e.toMessage, true, some ((steps.take k).all stepCompOk)⟩ ∧
    ((SagaExecutor.execute steps).1.rollbackSuccessful = some false ↔
      ∃ s ∈ steps.take k, stepCompOk s = false) := by
  have hp := execPhase_fail steps k hk e hfail hpre
  refine ⟨?_, ?_, ?_⟩
  · simp [SagaExecutor.execute, hp]
  · simp [SagaExecutor.execute, hp]
  · simp only [SagaExecutor.execute, hp]
    simp only [Option.some.injEq]
    rw [← Bool.not_eq_true, List.all_eq_true]
    push_neg
    simp

/-- Step sA of the C1 witness: succeeds, but its `compensate` throws. -/
def wStepA : SagaStep :=
  { name := ("sA"), description := ("a"), compOutcome := .error (.errObj ("Compensate failed")) }

/-- Step sB of the C1 witness: succeeds, compensation succeeds. -/
def wStepB : SagaStep :=
  { name := ("sB"), description := ("b") }

/-- Step sC of the C1 witness: its `execute` throws. -/
def wStepC : SagaStep :=
  { name := ("sC"), description := ("c"), execOutcome := .error (.errObj ("boom")) }

/-- Witness for C1: steps sA, sB succeed (sA's `compensate` throws), sC's
`execute` throws; compensation runs sB then sA and `rollbackSuccessful` is
`some false`. -/
theorem saga_rollback_order_witness :
    (SagaExecutor.execute [wStepA, wStepB, wStepC]).2 =
      [SagaEv.execEv ("sA"), SagaEv.execEv ("sB"), SagaEv.execEv ("sC"),
       SagaEv.compEv ("sB"), SagaEv.compEv ("sA")] ∧
    (SagaExecutor.execute [wStepA, wStepB, wStepC]).1 =
      ⟨false, [("sA"), ("sB")], some ("sC"), some ("boom"), true, some false⟩ ∧
    (∃ s ∈ [wStepA, wStepB], stepCompOk s = false) := by
  have h := saga_rollback_order [wStepA, wStepB, wStepC] 2 (by decide) (.errObj ("boom")) rfl
    (by
      intro i hi h2
      interval_cases i <;> rfl)
  refine ⟨?_, ?_, ?_⟩
  · rw [h.1]
    rfl
  · rw [h.2.1]
    rfl
  · refine ⟨wStepA, by simp, rfl⟩

lemma argminFirst_eq_none (l : List (String × TaskRecord)) :
    argminFirst l = none ↔ l = [] := by
  cases l with
  | nil => simp [argminFirst]
  | cons p rest =>
    simp only [argminFirst]
    cases argminFirst rest <;> simp

lemma argminFirst_mem (l : List (String × TaskRecord)) (p : String × TaskRecord)
    (h : argminFirst l = some p) : p ∈ l := by
  induction l generalizing p with
  | nil => simp [argminFirst] at h
  | cons a rest ih =>
    simp only [argminFirst] at h
    cases hr : argminFirst rest with
    | none =>
      rw [hr] at h
      simp at h
      simp [h]
    | some b =>
      rw [hr] at h
      simp at h
      by_cases hle : a.2.priority ≤ b.2.priority
      · rw [if_pos hle] at h
        simp [← h]
      · rw [if_neg hle] at h
        exact List.mem_cons_of_mem a (h ▸ ih b hr)

lemma argminFirst_min (l : List (String × TaskRecord)) (p : String × TaskRecord)
    (h : argminFirst l = some p) :
    ∀ q ∈ l, p.2.priority ≤ q.2.priority := by
  induction l generalizing p with
  | nil => simp [argminFirst] at h
  | cons a rest ih =>
    simp only [argminFirst] at h
    intro q hq
    cases hr : argminFirst rest with
    | none =>
      rw [hr] at h
      simp at h
      have hrest : rest = [] := (argminFirst_eq_none rest).mp hr
      subst hrest
      simp at hq
      rw [← h, hq]
    | some b =>
      rw [hr] at h
      simp at h
      rcases List.mem_cons.mp hq with hqa | hqr
      · by_cases hle : a.2.priority ≤ b.2.priority
        · rw [if_pos hle] at h
          rw [← h, hqa]
        · rw [if_neg hle] at h
          rw [← h, hqa]
          exact le_of_lt (lt_of_not_le hle)
      · by_cases hle : a.2.priority ≤ b.2.priority
        · rw [if_pos hle] at h
          rw [← h]
          exact le_trans hle (ih b hr q hqr)
        · rw [if_neg hle] at h
          rw [← h]
          exact ih b hr q hqr

lemma argminFirst_earliest (l : List (String × TaskRecord)) (p : String × TaskRecord)
    (h : argminFirst l = some p) :
    ∃ l1 l2, l = l1 ++ p :: l2 ∧ ∀ q ∈ l1, p.2.priority < q.2.priority := by
  induction l generalizing p with
  | nil => simp [argminFirst] at h
  | cons a rest ih =>
    simp only [argminFirst] at h
    cases hr : argminFirst rest with
    | none =>
      rw [hr] at h
      simp at h
      exact ⟨[], rest, by simp [h], by simp⟩
    | some b =>
      rw [hr] at h
      simp at h
      by_cases hle : a.2.priority ≤ b.2.priority
      · rw [if_pos hle] at h
        exact ⟨[], rest, by simp [h], by simp⟩
      · rw [if_neg hle] at h
        obtain ⟨l1, l2, heq, hlt⟩ := ih b hr
        refine ⟨a :: l1, l2, by simp [heq, h], ?_⟩
        intro q hq
        rcases List.mem_cons.mp hq with hqa | hql
        · subst hqa
          rw [← h]
          exact lt_of_not_le hle
        · exact h ▸ hlt q hql

lemma taskEligible_iff (r : TaskRecord) :
    taskEligible r = true ↔ (r.status = TaskStatus.pending ∨ r.status = TaskStatus.in_progress) := by
  cases h : r.status <;> simp [taskEligible, h]

/-- C5: `getNextTask` returns `none` exactly when no task has status
`pending` or `in_progress`; when it returns an id, that id's record is
eligible (so never `completed` or `failed`), has the lowest priority among all
eligible entries, and is the first eligible entry attaining that priority in
insertion order. -/
theorem next_task_selection (tasks : List (String × TaskRecord)) :
    (IndexManager.getNextTask tasks = none ↔
      tasks.filter (fun p => taskEligible p.2) = []) ∧
    (∀ id, IndexManager.getNextTask tasks = some id →
      ∃ r, (id, r) ∈ tasks ∧
        (r.status = TaskStatus.pending ∨ r.status = TaskStatus.in_progress) ∧
        r.status ≠ TaskStatus.completed ∧ r.status ≠ TaskStatus.failed ∧
        (∀ q ∈ tasks.filter (fun p => taskEligible p.2), r.priority ≤ q.2.priority) ∧
        (∃ l1 l2, tasks.filter (fun p => taskEligible p.2) = l1 ++ (id, r) :: l2 ∧
          ∀ q ∈ l1, r.priority < q.2.priority)) := by
  constructor
  · rw [IndexManager.getNextTask, Option.map_eq_none']
    exact argminFirst_eq_none _
  · intro id hid
    rw [IndexManager.getNextTask, Option.map_eq_some'] at hid
    obtain ⟨p, hp, hp1⟩ := hid
    refine ⟨p.2, ?_, ?_, ?_, ?_, ?_, ?_⟩
    · have := List.mem_filter.mp (argminFirst_mem _ p hp)
      have hmem := this.1
      rw [← hp1]
      exact hmem
    · have := List.mem_filter.mp (argminFirst_mem _ p hp)
      exact (taskEligible_iff p.2).mp this.2
    · have := (taskEligible_iff p.2).mp (List.mem_filter.mp (argminFirst_mem _ p hp)).2
      rcases this with h | h <;> simp [h]
    · have := (taskEligible_iff p.2).mp (List.mem_filter.mp (argminFirst_mem _ p hp)).2
      rcases this with h | h <;> simp [h]
    · exact argminFirst_min _ p hp
    · obtain ⟨l1, l2, heq, hlt⟩ := argminFirst_earliest _ p hp
      exact ⟨l1, l2, by rw [← hp1]; exact heq, hlt⟩

/-- Witness for C5: three pending tasks with priorities 10, 1, 5 — the id with
priority 1 is selected, is eligible, minimal, and first among minima. -/
theorem next_task_selection_witness :
    IndexManager.getNextTask
        [(("task.low"), ⟨TaskStatus.pending, 10⟩), (("task.high"), ⟨TaskStatus.pending, 1⟩),
         (("task.medium"), ⟨TaskStatus.pending, 5⟩)] = some ("task.high") ∧
    (∃ r, ((("task.high"), r) ∈
        [(("task.low"), (⟨TaskStatus.pending, 10⟩ : TaskRecord)),
         (("task.high"), ⟨TaskStatus.pending, 1⟩), (("task.medium"), ⟨TaskStatus.pending, 5⟩)]) ∧
      (r.status = TaskStatus.pending ∨ r.status = TaskStatus.in_progress) ∧
      r.status ≠ TaskStatus.completed ∧ r.status ≠ TaskStatus.failed ∧
      (∀ q ∈ List.filter (fun p => taskEligible p.2)
          [(("task.low"), (⟨TaskStatus.pending, 10⟩ : TaskRecord)),
           (("task.high"), ⟨TaskStatus.pending, 1⟩), (("task.medium"), ⟨TaskStatus.pending, 5⟩)],
        r.priority ≤ q.2.priority) ∧
      (∃ l1 l2, List.filter (fun p => taskEligible p.2)
          [(("task.low"), (⟨TaskStatus.pending, 10⟩ : TaskRecord)),
           (("task.high"), ⟨TaskStatus.pending, 1⟩), (("task.medium"), ⟨TaskStatus.pending, 5⟩)] =
            l1 ++ (("task.high"), r) :: l2 ∧
        ∀ q ∈ l1, r.priority < q.2.priority)) := by
  refine ⟨rfl, ?_⟩
  exact (next_task_selection
    [(("task.low"), ⟨TaskStatus.pending, 10⟩), (("task.high"), ⟨TaskStatus.pending, 1⟩),
     (("task.medium"), ⟨TaskStatus.pending, 5⟩)]).2 ("task.high") rfl

lemma indexOf_le_of_get (l : List String) (i : Nat) (hi : i < l.length) :
    l.indexOf (l.get ⟨i, hi⟩) ≤ i := by
  induction l generalizing i with
  | nil => simp at hi
  | cons a rest ih =>
    cases i with
    | zero => simp [List.indexOf_cons_self]
    | succ m =>
      have hm : m < rest.length := Nat.lt_of_succ_lt_succ hi
      have hget : (a :: rest).get ⟨m + 1, hi⟩ = rest.get ⟨m, hm⟩ := rfl
      rw [hget]
      by_cases hax : a = rest.get ⟨m, hm⟩
      · rw [← hax, List.indexOf_cons_self]
        omega
      · rw [List.indexOf_cons_ne _ hax]
        have := ih m hm
        omega

lemma dupNamesAux_mem (all : List String) (suffix : List String) (j k : Nat)
    (hk : k < suffix.length) (h : all.indexOf (suffix.get ⟨k, hk⟩) ≠ j + k) :
    suffix.get ⟨k, hk⟩ ∈ dupNamesAux all j suffix := by
  induction suffix generalizing j k with
  | nil => simp at hk
  | cons n rest ih =>
    cases k with
    | zero =>
      have hn : all.indexOf n ≠ j := by simpa using h
      simp only [dupNamesAux]
      rw [if_pos hn]
      simp
    | succ m =>
      have hm : m < rest.length := Nat.lt_of_succ_lt_succ hk
      have hget : (n :: rest).get ⟨m + 1, hk⟩ = rest.get ⟨m, hm⟩ := rfl
      rw [hget] at h ⊢
      have h2 : all.indexOf (rest.get ⟨m, hm⟩) ≠ (j + 1) + m := by omega
      have := ih (j + 1) m hm h2
      simp only [dupNamesAux]
      exact List.mem_append_right _ this

lemma dupNames_ne_nil (names : List String) (i j : Nat) (hi : i < names.length)
    (hj : j < names.length) (hij : i < j)
    (heq : names.get ⟨i, hi⟩ = names.get ⟨j, hj⟩) : dupNames names ≠ [] := by
  have hle : names.indexOf (names.get ⟨j, hj⟩) ≤ i := heq ▸ indexOf_le_of_get names i hi
  have hne : names.indexOf (names.get ⟨j, hj⟩) ≠ 0 + j := by omega
  have hmem := dupNamesAux_mem names names 0 j hj hne
  intro hnil
  rw [dupNames] at hnil
  rw [hnil] at hmem
  simp at hmem

lemma stepErrorsFrom_ne_nil (steps : List SagaStep) (s : SagaStep) (hs : s ∈ steps)
    (hv : ∀ j, validateStep j s ≠ []) : ∀ i, stepErrorsFrom i steps ≠ [] := by
  induction steps with
  | nil => simp at hs
  | cons a rest ih =>
    intro i hnil
    simp only [stepErrorsFrom, List.append_eq_nil] at hnil
    rcases List.mem_cons.mp hs with h | h
    · exact hv i (h ▸ hnil.1)
    · exact ih h (i + 1) hnil.2

lemma validateSteps_valid_false (steps : List SagaStep)
    (h : (SagaService.validateSteps steps).errors ≠ []) :
    (SagaService.validateSteps steps).valid = false := by
  have hdef : (SagaService.validateSteps steps).valid =
      (SagaService.validateSteps steps).errors.isEmpty := rfl
  rw [hdef]
  exact Bool.eq_false_iff.mpr (fun hT => h (List.isEmpty_iff.mp hT))

lemma executeSaga_invalid (steps : List SagaStep)
    (h : (SagaService.validateSteps steps).errors ≠ []) :
    ∃ rest, SagaService.executeSaga steps =
      .error ("Saga validation failed" ++ rest) := by
  have hvalid := validateSteps_valid_false steps h
  refine ⟨(": ") ++ String.intercalate (", ") (SagaService.validateSteps steps).errors, ?_⟩
  simp only [SagaService.executeSaga, hvalid, Bool.false_eq_true, if_false]
  rw [← String.append_assoc]
  congr 1

lemma perStep_errors_ne_nil (steps : List SagaStep) (s : SagaStep) (hs : s ∈ steps)
    (hv : ∀ j, validateStep j s ≠ []) :
    (SagaService.validateSteps steps).errors ≠ [] := by
  intro hnil
  simp only [SagaService.validateSteps, List.append_eq_nil] at hnil
  exact stepErrorsFrom_ne_nil steps s hs hv 0 hnil.1.2

lemma dup_errors_ne_nil (steps : List SagaStep) (i j : Nat)
    (hi : i < steps.length) (hj : j < steps.length) (hij : i < j)
    (heq : (steps.get ⟨i, hi⟩).name = (steps.get ⟨j, hj⟩).name) :
    (SagaService.validateSteps steps).errors ≠ [] := by
  have hi' : i < (steps.map (fun s => s.name)).length := by simpa using hi
  have hj' : j < (steps.map (fun s => s.name)).length := by simpa using hj
  have heq' : (steps.map (fun s => s.name)).get ⟨i, hi'⟩ =
      (steps.map (fun s => s.name)).get ⟨j, hj'⟩ := by
    simp [List.getElem_map]
    exact heq
  have hd := dupNames_ne_nil (steps.map (fun s => s.name)) i j hi' hj' hij heq'
  intro hnil
  simp only [SagaService.validateSteps, List.append_eq_nil] at hnil
  have hdup := hnil.2
  by_cases hde : (dupNames (steps.map (fun s => s.name))).isEmpty
  · exact hd (List.isEmpty_iff.mp hde)
  · rw [if_neg hde] at hdup
    simp at hdup

lemma validateStep_ne_nil_of_name (s : SagaStep) (h : s.name.trim = "") :
    ∀ j, validateStep j s ≠ [] := by
  intro j hnil
  simp [validateStep, h, List.append_eq_nil] at hnil

lemma validateStep_ne_nil_of_descr (s : SagaStep) (h : s.description.trim = "") :
    ∀ j, validateStep j s ≠ [] := by
  intro j hnil
  simp [validateStep, h, List.append_eq_nil] at hnil

lemma validateStep_ne_nil_of_exec (s : SagaStep) (h : s.executeIsFn = false) :
    ∀ j, validateStep j s ≠ [] := by
  intro j hnil
  simp [validateStep, h, List.append_eq_nil] at hnil

lemma validateStep_ne_nil_of_comp (s : SagaStep) (h : s.compensateIsFn = false) :
    ∀ j, validateStep j s ≠ [] := by
  intro j hnil
  simp [validateStep, h, List.append_eq_nil] at hnil

/-- C10: at the `SagaService.executeSaga` public interface, validation runs
before any step: the empty step list is rejected with the exact message
`Saga validation failed: Steps array cannot be empty` (even though the bare
executor reports success on `[]`), and a step list containing a step with a
missing name, description, execute or compensate function, or containing two
steps with the same name, is rejected with an error whose message starts with
"Saga validation failed". -/
theorem saga_service_validation_gate :
    (SagaService.executeSaga ([] : List SagaStep) =
      .error ("Saga validation failed: Steps array cannot be empty")) ∧
    ((SagaExecutor.execute ([] : List SagaStep)).1.success = true) ∧
    (∀ (steps : List SagaStep) (s : SagaStep), s ∈ steps → s.name.trim = "" →
      ∃ rest, SagaService.executeSaga steps = .error ("Saga validation failed" ++ rest)) ∧
    (∀ (steps : List SagaStep) (s : SagaStep), s ∈ steps → s.description.trim = "" →
      ∃ rest, SagaService.executeSaga steps = .error ("Saga validation failed" ++ rest)) ∧
    (∀ (steps : List SagaStep) (s : SagaStep), s ∈ steps → s.executeIsFn = false →
      ∃ rest, SagaService.executeSaga steps = .error ("Saga validation failed" ++ rest)) ∧
    (∀ (steps : List SagaStep) (s : SagaStep), s ∈ steps → s.compensateIsFn = false →
      ∃ rest, SagaService.executeSaga steps = .error ("Saga validation failed" ++ rest)) ∧
    (∀ (steps : List SagaStep) (i j : Nat) (hi : i < steps.length) (hj : j < steps.length),
      i < j → (steps.get ⟨i, hi⟩).name = (steps.get ⟨j, hj⟩).name →
      ∃ rest, SagaService.executeSaga steps = .error ("Saga validation failed" ++ rest)) := by
  refine ⟨rfl, rfl, ?_, ?_, ?_, ?_, ?_⟩
  · intro steps s hs h
    exact executeSaga_invalid steps
      (perStep_errors_ne_nil steps s hs (validateStep_ne_nil_of_name s h))
  · intro steps s hs h
    exact executeSaga_invalid steps
      (perStep_errors_ne_nil steps s hs (validateStep_ne_nil_of_descr s h))
  · intro steps s hs h
    exact executeSaga_invalid steps
      (perStep_errors_ne_nil steps s hs (validateStep_ne_nil_of_exec s h))
  · intro steps s hs h
    exact executeSaga_invalid steps
      (perStep_errors_ne_nil steps s hs (validateStep_ne_nil_of_comp s h))
  · intro steps i j hi hj hij heq
    exact executeSaga_invalid steps (dup_errors_ne_nil steps i j hi hj hij heq)

/-- Witness for C10: the empty saga is rejected with the exact message, and a
two-step saga with a duplicated name is rejected with a message starting with
"Saga validation failed". -/
theorem saga_service_validation_gate_witness :
    (SagaService.executeSaga ([] : List SagaStep) =
      .error ("Saga validation failed: Steps array cannot be empty")) ∧
    (∃ rest, SagaService.executeSaga
        [{ name := ("duplicate"), description := ("Step 1") },
         { name := ("duplicate"), description := ("Step 2") }] =
      .error ("Saga validation failed" ++ rest)) := by
  refine ⟨saga_service_validation_gate.1, ?_⟩
  exact saga_service_validation_gate.2.2.2.2.2.2
    [{ name := ("duplicate"), description := ("Step 1") },
     { name := ("duplicate"), description := ("Step 2") }]
    0 1 (by decide) (by decide) (by decide) rfl
